import Mathlib

/-!
Verification development for the Fruko-Bindgen schema-to-code generator.

The Rust sources under src/ are shallowly embedded here:
* src/lexer.rs                — source locations, tokens, and the lexer;
* src/parser.rs               — the AST data model and the recursive-descent
                                parser (token streams are lists, the iterator
                                is modelled by threading the remaining list);
* src/cxx.rs                  — the C++ backend: normalizing AST transformation
                                and textual emission;
* src/ts_mobx.rs              — the TypeScript/MobX backend;
* src/compilation_target.rs   — the target registry.

Modelling conventions:
* Rust String is Lean String; Vec<T> and iterators over it are List T.
* i32 source coordinates are Lean Int (no overflow is relevant here).
* Rust Result<T, E> is Except E T; the functions are pure, as are the
  originals (they have no side effects).
* char::is_whitespace / char::is_alphanumeric are modelled by Lean's
  Char.isWhitespace / Char.isAlphanum; the claims under study only involve
  ASCII input, where the classifications agree.
* The recursive-descent parser functions take an explicit fuel argument to
  make them structurally recursive.  Every loop iteration and every level of
  recursion in the source consumes at least one token, so the fuel supplied
  by parseTokens (4 * length + 8) can never be exhausted on any input; fuel
  exhaustion returns ParseError.UnexpectedEndOfTokens.  The lexer gets fuel
  length + 1 for the same reason.
* NamedStatementList { name, child_nodes } is inlined into the two
  declaration constructors of ASTNode (a name field plus a child list),
  avoiding a mutually nested structure.
-/

/-! ## src/lexer.rs -/

/-- SourceLocation from src/lexer.rs: line (1-based) and position within the
line (0-based, reset to 0 on every newline). -/
structure SourceLocation where
  line : Int
  position : Int
deriving DecidableEq, Repr

/-- Default for SourceLocation: line 1, position 0. -/
def SourceLocation.start : SourceLocation := ⟨1, 0⟩

/-- TokenType from src/lexer.rs: punctuation, the struct/enum keywords, the
primitive-type keywords, and a generic identifier carrying its text. -/
inductive TokenType where
  | LParen | RParen | LCurly | RCurly | LSquare | RSquare | Comma | Colon
  | Struct | Enum
  | U8 | U16 | U32 | U64 | I8 | I16 | I32 | I64 | F32 | F64
  | String | Char | Bool | Option | Array
  | Identifier : String → TokenType
deriving DecidableEq, Repr

/-- Token from src/lexer.rs: a token type plus the source location the lexer
recorded for it. -/
structure Token where
  tokenType : TokenType
  sourceLocation : SourceLocation
deriving DecidableEq, Repr

/-- LexError from src/lexer.rs. -/
inductive LexError where
  | UnknownCharacterError : SourceLocation → LexError
deriving DecidableEq, Repr

/-- Whether a token type is the generic identifier. -/
def isIdentifierToken : TokenType → Bool
  | .Identifier _ => true
  | _ => false

/-- Lexer::next from src/lexer.rs, the location side: position is incremented
for every consumed character, and consuming a newline then increments the line
and resets the position to 0. -/
def lexerAdvance (loc : SourceLocation) (c : Char) : SourceLocation :=
  if c = '\n' then ⟨loc.line + 1, 0⟩ else ⟨loc.line, loc.position + 1⟩

/-- The single-character punctuation table of Lexer::lex_impl. -/
def charTokenType (c : Char) : Option TokenType :=
  if c = '(' then some .LParen
  else if c = '\x7b' then some .LCurly
  else if c = '[' then some .LSquare
  else if c = ')' then some .RParen
  else if c = '\x7d' then some .RCurly
  else if c = ']' then some .RSquare
  else if c = ',' then some .Comma
  else if c = ':' then some .Colon
  else none

/-- The keyword table of Lexer::lex_name: a completed alphanumeric run is
matched against the fixed keywords, everything else becomes an identifier.
The source location passed in is attached to the produced token. -/
def lexKeywordToken (name : String) (loc : SourceLocation) : Token :=
  match name with
  | "struct" => ⟨.Struct, loc⟩
  | "enum" => ⟨.Enum, loc⟩
  | "u8" => ⟨.U8, loc⟩
  | "u16" => ⟨.U16, loc⟩
  | "u32" => ⟨.U32, loc⟩
  | "u64" => ⟨.U64, loc⟩
  | "i8" => ⟨.I8, loc⟩
  | "i16" => ⟨.I16, loc⟩
  | "i32" => ⟨.I32, loc⟩
  | "i64" => ⟨.I64, loc⟩
  | "f32" => ⟨.F32, loc⟩
  | "f64" => ⟨.F64, loc⟩
  | "string" => ⟨.String, loc⟩
  | "char" => ⟨.Char, loc⟩
  | "bool" => ⟨.Bool, loc⟩
  | "option" => ⟨.Option, loc⟩
  | "array" => ⟨.Array, loc⟩
  | _ => ⟨.Identifier name, loc⟩

/-- The while loop of Lexer::lex_name: consume the maximal run of further
alphanumeric characters, extending the accumulated name and advancing the
lexer location, and return the name, the location after the run, and the
unconsumed rest. -/
def lexNameRun (loc : SourceLocation) (acc : String) :
    List Char → String × SourceLocation × List Char
  | [] => (acc, loc, [])
  | c :: rest =>
    if c.isAlphanum then lexNameRun (lexerAdvance loc c) (acc.push c) rest
    else (acc, loc, c :: rest)

/-- Lexer::lex_name from src/lexer.rs.  It is entered after the start
character has already been consumed, so loc is the location just after that
first character; the source clones self.source_location at this point, hence
the produced token records loc — the location after the FIRST character of
the run, not after its last. -/
def lexName (loc : SourceLocation) (startChar : Char) (cs : List Char) :
    Token × SourceLocation × List Char :=
  let r := lexNameRun loc (String.singleton startChar) cs
  (lexKeywordToken r.1 loc, r.2.1, r.2.2)

/-- Lexer::lex_impl from src/lexer.rs, with fuel making the loop structural.
Each iteration consumes at least one character, so fuel = length + 1 (as
supplied by lexTokens) is never exhausted. -/
def lexImpl : Nat → SourceLocation → List Char → Except LexError (List Token)
  | 0, loc, _ => .error (.UnknownCharacterError loc)
  | _ + 1, _, [] => .ok []
  | fuel + 1, loc, c :: cs =>
    let loc1 := lexerAdvance loc c
    if c.isWhitespace then lexImpl fuel loc1 cs
    else
      match charTokenType c with
      | some tt =>
        match lexImpl fuel loc1 cs with
        | .error e => .error e
        | .ok toks => .ok (⟨tt, loc1⟩ :: toks)
      | none =>
        if c.isAlphanum then
          let r := lexName loc1 c cs
          match lexImpl fuel r.2.1 r.2.2 with
          | .error e => .error e
          | .ok toks => .ok (r.1 :: toks)
        else .error (.UnknownCharacterError loc1)

/-- lex_tokens from src/lexer.rs: lex a whole source text starting from the
default location. -/
def lexTokens (contents : List Char) : Except LexError (List Token) :=
  lexImpl (contents.length + 1) SourceLocation.start contents

/-! ## src/parser.rs — data model -/

/-- DataType from src/parser.rs. -/
inductive DataType where
  | U8 | I8 | U16 | I16 | U32 | I32 | U64 | I64 | F32 | F64
  | Char | String | Bool
  | Option : DataType → DataType
  | Array : DataType → DataType
  | UserDefined : String → DataType
deriving DecidableEq, Repr

/-- ASTNode from src/parser.rs.  NamedStatementList { name, child_nodes } is
inlined into the two declaration constructors; StructMemberDeclaration and
EnumMemberDeclaration carry their fields directly; DataDefinition carries its
child list. -/
inductive ASTNode where
  | StructDeclaration : String → List ASTNode → ASTNode
  | EnumDeclaration : String → List ASTNode → ASTNode
  | StructMemberDeclaration : String → ASTNode → ASTNode
  | EnumMemberDeclaration : String → ASTNode
  | TypeLiteral : DataType → ASTNode
  | DataDefinition : List ASTNode → ASTNode

/-- ParseError from src/parser.rs. -/
inductive ParseError where
  | UnexpectedToken
  | UnexpectedEndOfTokens
deriving DecidableEq, Repr

/-! ## src/parser.rs — the recursive-descent parser -/

/-- parse_literal_type from src/parser.rs.  The first token of the type has
already been consumed and its type is passed as typeToken; ts is the rest of
the stream.  NOTE, faithful to the source (parser.rs line 270): the
TokenType::Array branch constructs DataType::Option, not DataType::Array —
the parser never produces DataType::Array. -/
def parseLiteralType : Nat → TokenType → List Token →
    Except ParseError (DataType × List Token)
  | 0, _, _ => .error .UnexpectedEndOfTokens
  | fuel + 1, typeToken, ts =>
    match typeToken with
    | .U8 => .ok (.U8, ts)
    | .U16 => .ok (.U16, ts)
    | .U32 => .ok (.U32, ts)
    | .U64 => .ok (.U64, ts)
    | .I8 => .ok (.I8, ts)
    | .I16 => .ok (.I16, ts)
    | .I32 => .ok (.I32, ts)
    | .I64 => .ok (.I64, ts)
    | .F32 => .ok (.F32, ts)
    | .F64 => .ok (.F64, ts)
    | .String => .ok (.String, ts)
    | .Char => .ok (.Char, ts)
    | .Bool => .ok (.Bool, ts)
    | .Option =>
      match ts with
      | [] => .error .UnexpectedEndOfTokens
      | t1 :: ts1 =>
        if t1.tokenType = .LParen then
          match ts1 with
          | [] => .error .UnexpectedEndOfTokens
          | t2 :: ts2 =>
            match parseLiteralType fuel t2.tokenType ts2 with
            | .error e => .error e
            | .ok (inner, ts3) =>
              match ts3 with
              | [] => .error .UnexpectedEndOfTokens
              | t3 :: ts4 =>
                if t3.tokenType = .RParen then .ok (.Option inner, ts4)
                else .error .UnexpectedToken
        else .error .UnexpectedToken
    | .Array =>
      match ts with
      | [] => .error .UnexpectedEndOfTokens
      | t1 :: ts1 =>
        if t1.tokenType = .LParen then
          match ts1 with
          | [] => .error .UnexpectedEndOfTokens
          | t2 :: ts2 =>
            match parseLiteralType fuel t2.tokenType ts2 with
            | .error e => .error e
            | .ok (inner, ts3) =>
              match ts3 with
              | [] => .error .UnexpectedEndOfTokens
              | t3 :: ts4 =>
                -- parser.rs line 270 wraps the inner type in DataType::Option
                -- here as well, not DataType::Array.
                if t3.tokenType = .RParen then .ok (.Option inner, ts4)
                else .error .UnexpectedToken
        else .error .UnexpectedToken
    | .Identifier name => .ok (.UserDefined name, ts)
    | _ => .error .UnexpectedToken

mutual

/-- parse_named_statement_list from src/parser.rs: the declaration name, an
opening brace, the children, and a closing brace.  Returns the inlined
NamedStatementList (name and children) plus the remaining tokens. -/
def parseNamedStatementList : Nat → List Token →
    Except ParseError ((String × List ASTNode) × List Token)
  | 0, _ => .error .UnexpectedEndOfTokens
  | fuel + 1, ts =>
    match ts with
    | [] => .error .UnexpectedEndOfTokens
    | nameTok :: ts1 =>
      match nameTok.tokenType with
      | .Identifier name =>
        match ts1 with
        | [] => .error .UnexpectedEndOfTokens
        | t :: ts2 =>
          if t.tokenType = .LCurly then
            match parseNamedStatementListChildren fuel ts2 with
            | .error e => .error e
            | .ok (children, ts3) =>
              match ts3 with
              | [] => .error .UnexpectedEndOfTokens
              | t2 :: ts4 =>
                if t2.tokenType = .RCurly then .ok ((name, children), ts4)
                else .error .UnexpectedToken
          else .error .UnexpectedToken
      | _ => .error .UnexpectedToken

/-- parse_named_statement_list_children from src/parser.rs.  The loop: peek
at the next token; if it is not an identifier, stop (without consuming it).
Otherwise consume the name and the following token: a colon selects a struct
member (whose type is then parsed), a comma selects an enum member, anything
else is an UnexpectedToken error.  After each member the next token is peeked
(its absence is an UnexpectedEndOfTokens error) and an optional comma is
consumed. -/
def parseNamedStatementListChildren : Nat → List Token →
    Except ParseError (List ASTNode × List Token)
  | 0, _ => .error .UnexpectedEndOfTokens
  | fuel + 1, ts =>
    match ts with
    | [] => .error .UnexpectedEndOfTokens
    | t :: ts1 =>
      match t.tokenType with
      | .Identifier name =>
        match ts1 with
        | [] => .error .UnexpectedEndOfTokens
        | ft :: ts2 =>
          match
            (match ft.tokenType with
             | .Colon =>
               match parseStructMemberTypeDeclaration fuel ts2 with
               | .error e => .error e
               | .ok (node, r) => .ok (ASTNode.StructMemberDeclaration name node, r)
             | .Comma => .ok (ASTNode.EnumMemberDeclaration name, ts2)
             | _ => .error ParseError.UnexpectedToken :
              Except ParseError (ASTNode × List Token))
          with
          | .error e => .error e
          | .ok (node, ts3) =>
            match ts3 with
            | [] => .error .UnexpectedEndOfTokens
            | pc :: ts4 =>
              let ts5 := match pc.tokenType with
                         | .Comma => ts4
                         | _ => pc :: ts4
              match parseNamedStatementListChildren fuel ts5 with
              | .error e => .error e
              | .ok (restNodes, r) => .ok (node :: restNodes, r)
      | _ => .ok ([], ts)

/-- parse_struct_member_type_declaration from src/parser.rs: a struct or enum
keyword starts an inline declaration, anything else is handed to
parse_literal_type. -/
def parseStructMemberTypeDeclaration : Nat → List Token →
    Except ParseError (ASTNode × List Token)
  | 0, _ => .error .UnexpectedEndOfTokens
  | fuel + 1, ts =>
    match ts with
    | [] => .error .UnexpectedEndOfTokens
    | t :: rest =>
      match t.tokenType with
      | .Struct =>
        match parseNamedStatementList fuel rest with
        | .error e => .error e
        | .ok (nsl, r) => .ok (.StructDeclaration nsl.1 nsl.2, r)
      | .Enum =>
        match parseNamedStatementList fuel rest with
        | .error e => .error e
        | .ok (nsl, r) => .ok (.EnumDeclaration nsl.1 nsl.2, r)
      | tt =>
        match parseLiteralType fuel tt rest with
        | .error e => .error e
        | .ok (dt, r) => .ok (.TypeLiteral dt, r)

end

/-- parse from src/parser.rs: one top-level declaration, introduced by the
struct or enum keyword. -/
def parse : Nat → List Token → Except ParseError (ASTNode × List Token)
  | 0, _ => .error .UnexpectedEndOfTokens
  | fuel + 1, ts =>
    match ts with
    | [] => .error .UnexpectedEndOfTokens
    | t :: rest =>
      match t.tokenType with
      | .Struct =>
        match parseNamedStatementList fuel rest with
        | .error e => .error e
        | .ok (nsl, r) => .ok (.StructDeclaration nsl.1 nsl.2, r)
      | .Enum =>
        match parseNamedStatementList fuel rest with
        | .error e => .error e
        | .ok (nsl, r) => .ok (.EnumDeclaration nsl.1 nsl.2, r)
      | _ => .error .UnexpectedToken

/-- The while loop of parse_tokens from src/parser.rs: parse top-level
declarations until the stream is exhausted. -/
def parseTokensLoop : Nat → List Token → Except ParseError (List ASTNode)
  | 0, _ => .error .UnexpectedEndOfTokens
  | _ + 1, [] => .ok []
  | fuel + 1, ts =>
    match parse fuel ts with
    | .error e => .error e
    | .ok (node, rest) =>
      match parseTokensLoop fuel rest with
      | .error e => .error e
      | .ok nodes => .ok (node :: nodes)

/-- parse_tokens from src/parser.rs: the whole token stream becomes an
ASTNode::DataDefinition.  Every step of the parser consumes at least one
token before recursing, so the supplied fuel is never exhausted. -/
def parseTokens (tokens : List Token) : Except ParseError ASTNode :=
  match parseTokensLoop (4 * tokens.length + 8) tokens with
  | .error e => .error e
  | .ok nodes => .ok (.DataDefinition nodes)

/-- Helper for writing token streams in theorems: the parser ignores source
locations, so they are fixed at the default. -/
def tk (tt : TokenType) : Token := ⟨tt, SourceLocation.start⟩

/-! ## src/compilation_target.rs -/

/-- CompilationError from src/compilation_target.rs. -/
inductive CompilationError where
  | UnknownTarget : String → CompilationError
  | InvalidAST
deriving DecidableEq, Repr

/-- The two concrete backends the registry can resolve to (CXXGenerator from
src/cxx.rs and TSMobXGenerator from src/ts_mobx.rs); the boxed trait object
inside Target is modelled by this closed enumeration. -/
inductive TargetKind where
  | CXXGenerator
  | TSMobXGenerator
deriving DecidableEq, Repr

/-- Target::from_str from src/compilation_target.rs: a case-exact match of
the identifier against the alias table; the or-patterns of the Rust match
become disjunctions.  The lookup is a pure function — it reads nothing but
its argument and performs no side effect. -/
def Target.fromStr (s : String) : Except CompilationError TargetKind :=
  if s = "cxx" ∨ s = "cpp" ∨ s = "c++" ∨ s = "h" then .ok .CXXGenerator
  else if s = "ts-mobx" ∨ s = "typescript-mobx" ∨ s = "ts" then .ok .TSMobXGenerator
  else .error (.UnknownTarget s)

/-! ## src/cxx.rs — the structural C++ backend -/

mutual

/-- CXXASTTransformer::transform_ast_impl from src/cxx.rs.  The accumulator
acc models self.new_ast.child_nodes, to which the function appends.  A struct
declaration rebuilds its member list (hoisting inline member types into acc
first); an enum declaration is pushed verbatim; a data definition folds over
its children; every other node leaves the accumulator untouched. -/
def cxxTransformImpl : List ASTNode → ASTNode → List ASTNode
  | acc, .StructDeclaration name children =>
    let p := cxxTransformMembers acc children
    p.1 ++ [.StructDeclaration name p.2]
  | acc, .EnumDeclaration name children => acc ++ [.EnumDeclaration name children]
  | acc, .DataDefinition children => cxxTransformFold acc children
  | acc, _ => acc

/-- The member loop inside the StructDeclaration arm of transform_ast_impl.
Only StructMemberDeclaration children are examined (the if-let silently skips
every other child).  A member whose type is an inline struct or enum
declaration is recursively transformed into the accumulator and replaced by a
TypeLiteral (UserDefined name) reference; any other member passes through
unchanged.  Returns the grown accumulator and the rebuilt member list. -/
def cxxTransformMembers : List ASTNode → List ASTNode → List ASTNode × List ASTNode
  | acc, [] => (acc, [])
  | acc, .StructMemberDeclaration mname (.StructDeclaration iname ichildren) :: rest =>
    let acc1 := cxxTransformImpl acc (.StructDeclaration iname ichildren)
    let p := cxxTransformMembers acc1 rest
    (p.1, .StructMemberDeclaration mname (.TypeLiteral (.UserDefined iname)) :: p.2)
  | acc, .StructMemberDeclaration mname (.EnumDeclaration iname ichildren) :: rest =>
    let acc1 := cxxTransformImpl acc (.EnumDeclaration iname ichildren)
    let p := cxxTransformMembers acc1 rest
    (p.1, .StructMemberDeclaration mname (.TypeLiteral (.UserDefined iname)) :: p.2)
  | acc, .StructMemberDeclaration mname dt :: rest =>
    let p := cxxTransformMembers acc rest
    (p.1, .StructMemberDeclaration mname dt :: p.2)
  | acc, _ :: rest => cxxTransformMembers acc rest

/-- The child loop of the DataDefinition arm of transform_ast_impl. -/
def cxxTransformFold : List ASTNode → List ASTNode → List ASTNode
  | acc, [] => acc
  | acc, c :: rest => cxxTransformFold (cxxTransformImpl acc c) rest

end

/-- CXXASTTransformer::transform_ast from src/cxx.rs: run the transformation
from an empty accumulator and wrap the result in a DataDefinition. -/
def cxxTransformAst (ast : ASTNode) : ASTNode :=
  .DataDefinition (cxxTransformImpl [] ast)

/-- generate_type_name from src/cxx.rs. -/
def cxxGenerateTypeName : DataType → String
  | .U8 => "std::uint8_t"
  | .I8 => "std::int8_t"
  | .U16 => "std::uint16_t"
  | .I16 => "std::int16_t"
  | .U32 => "std::uint32_t"
  | .I32 => "std::int32_t"
  | .U64 => "std::uint64_t"
  | .I64 => "std::int64_t"
  | .F32 => "float"
  | .F64 => "double"
  | .Char => "char"
  | .String => "std::string"
  | .Bool => "bool"
  | .Option inner => "std::optional<" ++ cxxGenerateTypeName inner ++ ">"
  | .Array inner => "std::vector<" ++ cxxGenerateTypeName inner ++ ">"
  | .UserDefined name => name

mutual

/-- generate from src/cxx.rs: textual rendering of the (transformed) AST.
Note the function is total — it returns a plain string for every node and
has no error channel at all. -/
def cxxGenerate : ASTNode → String
  | .StructDeclaration name children =>
    "struct " ++ name ++ " \x7b " ++ cxxGenerateConcat children ++ " \x7d;"
  | .EnumDeclaration name children =>
    "enum class " ++ name ++ " \x7b " ++ cxxGenerateJoin children ++ " \x7d;"
  | .StructMemberDeclaration name dt => cxxGenerate dt ++ " " ++ name ++ ";"
  | .EnumMemberDeclaration name => name
  | .TypeLiteral dt => cxxGenerateTypeName dt
  | .DataDefinition children => cxxGenerateConcat children

/-- The fold concatenating struct-body member renderings (and top-level
declaration renderings) without separator. -/
def cxxGenerateConcat : List ASTNode → String
  | [] => ""
  | c :: rest => cxxGenerate c ++ cxxGenerateConcat rest

/-- The comma join of enum-body label renderings. -/
def cxxGenerateJoin : List ASTNode → String
  | [] => ""
  | [c] => cxxGenerate c
  | c :: rest => cxxGenerate c ++ "," ++ cxxGenerateJoin rest

end

/-- generate_code from src/cxx.rs: transform, then emit.  Total — the C++
backend cannot fail. -/
def cxxGenerateCode (ast : ASTNode) : String :=
  cxxGenerate (cxxTransformAst ast)

/-! ## src/ts_mobx.rs — the reactive-model backend -/

/-- generate_type_name from src/ts_mobx.rs.  All ten primitive numeric kinds
share the single arm producing "types.num". -/
def tsGenerateTypeName : DataType → String
  | .U8 => "types.num"
  | .I8 => "types.num"
  | .U16 => "types.num"
  | .I16 => "types.num"
  | .U32 => "types.num"
  | .I32 => "types.num"
  | .U64 => "types.num"
  | .I64 => "types.num"
  | .F32 => "types.num"
  | .F64 => "types.num"
  | .Char => "types.char"
  | .String => "types.string"
  | .Bool => "types.bool"
  | .Option inner => "types.maybe(" ++ tsGenerateTypeName inner ++ ")"
  | .Array inner => "types.array(" ++ tsGenerateTypeName inner ++ ")"
  | .UserDefined name => name

/-- The ten primitive numeric kinds grouped by the first match arm of
generate_type_name in src/ts_mobx.rs. -/
def isNumericDataType : DataType → Bool
  | .U8 | .I8 | .U16 | .I16 | .U32 | .I32 | .U64 | .I64 | .F32 | .F64 => true
  | _ => false

mutual

/-- generate_code from src/ts_mobx.rs (the module-level function): direct
rendering of the AST with no structural transformation. -/
def tsGenerateCode : ASTNode → Except CompilationError String
  | .StructDeclaration _ children =>
    match tsFoldMembers children with
    | .error e => .error e
    | .ok body => .ok ("types.model(\x7b " ++ body ++ " \x7d)")
  | .EnumDeclaration _ children =>
    match tsFoldMembers children with
    | .error e => .error e
    | .ok body => .ok ("types.enum([ " ++ body ++ " ])")
  | .StructMemberDeclaration name dt =>
    match tsGenerateCode dt with
    | .error e => .error e
    | .ok s => .ok (name ++ ": " ++ s)
  | .EnumMemberDeclaration name => .ok ("\x27" ++ name ++ "\x27")
  | .TypeLiteral dt => .ok (tsGenerateTypeName dt)
  | .DataDefinition children => tsFoldTop children
termination_by ast => 2 * sizeOf ast
decreasing_by all_goals (simp_wf <;> omega)

/-- The try_fold of the struct/enum arms of generate_code: each child's
rendering is appended followed by ", " (including after the last child). -/
def tsFoldMembers : List ASTNode → Except CompilationError String
  | [] => .ok ""
  | c :: rest =>
    match tsGenerateCode c with
    | .error e => .error e
    | .ok s =>
      match tsFoldMembers rest with
      | .error e => .error e
      | .ok r => .ok (s ++ ", " ++ r)
termination_by ms => 2 * sizeOf ms
decreasing_by all_goals (simp_wf <;> omega)

/-- The try_fold of the DataDefinition arm of generate_code: top-level
exports concatenated. -/
def tsFoldTop : List ASTNode → Except CompilationError String
  | [] => .ok ""
  | c :: rest =>
    match tsGenerateTopLevel c with
    | .error e => .error e
    | .ok s =>
      match tsFoldTop rest with
      | .error e => .error e
      | .ok r => .ok (s ++ r)
termination_by cs => 2 * sizeOf cs + 1
decreasing_by all_goals (simp_wf <;> omega)

/-- generate_top_level_type_definition from src/ts_mobx.rs: a struct or enum
declaration becomes an export of the rendered model plus a paired snapshot
type alias; every other node kind is the reachable
CompilationError::InvalidAST branch. -/
def tsGenerateTopLevel : ASTNode → Except CompilationError String
  | .StructDeclaration name children =>
    match tsGenerateCode (.StructDeclaration name children) with
    | .error e => .error e
    | .ok s =>
      .ok ("export const " ++ name ++ " = " ++ s ++ "; export type " ++ name ++
        "SnapshotType = SnapshotIn<typeof " ++ name ++ ">;")
  | .EnumDeclaration name children =>
    match tsGenerateCode (.EnumDeclaration name children) with
    | .error e => .error e
    | .ok s =>
      .ok ("export const " ++ name ++ " = " ++ s ++ "; export type " ++ name ++
        "SnapshotType = SnapshotIn<typeof " ++ name ++ ">;")
  | _ => .error .InvalidAST
termination_by ast => 2 * sizeOf ast + 1
decreasing_by all_goals simp_wf

end

/-! ## Predicates used by the theorems -/

/-- Whether a node is a struct or enum declaration. -/
def isDeclNode : ASTNode → Bool
  | .StructDeclaration _ _ => true
  | .EnumDeclaration _ _ => true
  | _ => false

mutual

/-- Whether a node's subtree contains a member whose type is an inline struct
or enum declaration. -/
def containsInline : ASTNode → Bool
  | .StructDeclaration _ children => containsInlineList children
  | .EnumDeclaration _ children => containsInlineList children
  | .StructMemberDeclaration _ dt => isDeclNode dt || containsInline dt
  | .DataDefinition children => containsInlineList children
  | _ => false

/-- containsInline over a child list. -/
def containsInlineList : List ASTNode → Bool
  | [] => false
  | c :: rest => containsInline c || containsInlineList rest

end

/-- Shape of a member's type permitted by the data model (spec 3:
a StructMemberDeclaration's data_type must be a TypeLiteral or an inline
struct/enum declaration). -/
def memberTypeShape : ASTNode → Bool
  | .TypeLiteral _ => true
  | .StructDeclaration _ _ => true
  | .EnumDeclaration _ _ => true
  | _ => false

/-- Shape of a declaration-body child permitted by the data model: a struct
or enum member declaration. -/
def memberShape : ASTNode → Bool
  | .StructMemberDeclaration _ _ => true
  | .EnumMemberDeclaration _ => true
  | _ => false

mutual

/-- Well-formedness of the parser's output AST as documented in the data
model: declaration bodies hold member declarations, a struct member's type is
a TypeLiteral or an inline declaration, and a data definition's children are
declarations. -/
def wellFormed : ASTNode → Bool
  | .StructDeclaration _ children => wfMembers children
  | .EnumDeclaration _ children => wfMembers children
  | .StructMemberDeclaration _ dt => memberTypeShape dt && wellFormed dt
  | .EnumMemberDeclaration _ => true
  | .TypeLiteral _ => true
  | .DataDefinition children => wfDecls children

/-- Well-formedness of a declaration body. -/
def wfMembers : List ASTNode → Bool
  | [] => true
  | c :: rest => memberShape c && wellFormed c && wfMembers rest

/-- Well-formedness of a data definition's child list. -/
def wfDecls : List ASTNode → Bool
  | [] => true
  | c :: rest => isDeclNode c && wellFormed c && wfDecls rest

end

mutual

/-- Every enum declaration in the subtree has an inline-free body.  This is
the side condition under which the C++ transformation flattens everything:
transform_ast_impl pushes enum declarations verbatim without recursing into
them (cxx.rs lines 78-82). -/
def enumsOk : ASTNode → Bool
  | .StructDeclaration _ children => enumsOkList children
  | .EnumDeclaration _ children => !containsInlineList children
  | .StructMemberDeclaration _ dt => enumsOk dt
  | .DataDefinition children => enumsOkList children
  | _ => true

/-- enumsOk over a child list. -/
def enumsOkList : List ASTNode → Bool
  | [] => true
  | c :: rest => enumsOk c && enumsOkList rest

end

/-- A declaration-body child that the transformation passes through
unchanged: a struct member whose type is not an inline declaration. -/
def plainMember : ASTNode → Bool
  | .StructMemberDeclaration _ dt => !isDeclNode dt
  | _ => false

/-- A top-level child on which the transformation acts as the identity: an
enum declaration (pushed verbatim), or a struct declaration all of whose
children are plain struct members. -/
def identityChild : ASTNode → Bool
  | .EnumDeclaration _ _ => true
  | .StructDeclaration _ ms => ms.all plainMember
  | _ => false

/-- Body of a linear chain of nested inline struct declarations: the
innermost body holds one plain primitive member, and each outer body holds
one member whose type is the next inline struct declaration. -/
def chainBody : List String → List ASTNode
  | [] => [.StructMemberDeclaration "leaf" (.TypeLiteral .U8)]
  | m :: rest => [.StructMemberDeclaration "m" (.StructDeclaration m (chainBody rest))]

/-- A chain of nested inline struct declarations: depth (number of inline
declarations below the outermost) equals the length of the name list. -/
def chain (n : String) (names : List String) : ASTNode :=
  .StructDeclaration n (chainBody names)

/-- Modelled from the spec's hoist-ordering property (spec 8): the expected
top-level declaration list after normalizing a chain — the innermost
declaration first, each later declaration referring to its hoisted inner type
by a TypeLiteral (UserDefined name) member only. -/
def chainHoistedSpec : String → List String → List ASTNode
  | n, [] => [.StructDeclaration n [.StructMemberDeclaration "leaf" (.TypeLiteral .U8)]]
  | n, m :: rest =>
    chainHoistedSpec m rest ++
      [.StructDeclaration n [.StructMemberDeclaration "m" (.TypeLiteral (.UserDefined m))]]

/-! ## Helper lemmas -/

theorem containsInlineList_append (xs ys : List ASTNode) :
    containsInlineList (xs ++ ys) = (containsInlineList xs || containsInlineList ys) := by
  induction xs with
  | nil => simp [containsInlineList]
  | cons c rest ih => simp [containsInlineList, ih, Bool.or_assoc]

theorem cxxTransformMembers_plain (ms : List ASTNode) (acc : List ASTNode)
    (h : ms.all plainMember = true) : cxxTransformMembers acc ms = (acc, ms) := by
  induction ms generalizing acc with
  | nil => rfl
  | cons m rest ih =>
    simp only [List.all_cons, Bool.and_eq_true] at h
    obtain ⟨h1, h2⟩ := h
    cases m <;> simp [plainMember] at h1
    rename_i name dt
    cases dt <;> simp [isDeclNode] at h1 <;>
      simp [cxxTransformMembers, ih _ h2]

theorem cxxTransformImpl_identity (c : ASTNode) (acc : List ASTNode)
    (h : identityChild c = true) : cxxTransformImpl acc c = acc ++ [c] := by
  cases c with
  | EnumDeclaration name children => rfl
  | StructDeclaration name children =>
    simp only [identityChild] at h
    simp [cxxTransformImpl, cxxTransformMembers_plain children acc h]
  | StructMemberDeclaration name dt => simp [identityChild] at h
  | EnumMemberDeclaration name => simp [identityChild] at h
  | TypeLiteral dt => simp [identityChild] at h
  | DataDefinition children => simp [identityChild] at h

theorem cxxTransformFold_identity (cs : List ASTNode) (acc : List ASTNode)
    (h : cs.all identityChild = true) : cxxTransformFold acc cs = acc ++ cs := by
  induction cs generalizing acc with
  | nil => simp [cxxTransformFold]
  | cons c rest ih =>
    simp only [List.all_cons, Bool.and_eq_true] at h
    simp [cxxTransformFold, cxxTransformImpl_identity c acc h.1, ih _ h.2]

theorem cxxTransformImpl_single_inline (acc : List ASTNode) (n mn iname : String)
    (ich : List ASTNode) :
    cxxTransformImpl acc
        (.StructDeclaration n [.StructMemberDeclaration mn (.StructDeclaration iname ich)]) =
      cxxTransformImpl acc (.StructDeclaration iname ich) ++
        [.StructDeclaration n [.StructMemberDeclaration mn (.TypeLiteral (.UserDefined iname))]] :=
  rfl

theorem cxxTransformImpl_chain (names : List String) (n : String) (acc : List ASTNode) :
    cxxTransformImpl acc (.StructDeclaration n (chainBody names)) =
      acc ++ chainHoistedSpec n names := by
  induction names generalizing n acc with
  | nil => rfl
  | cons m rest ih =>
    simp only [chainBody]
    rw [cxxTransformImpl_single_inline, ih]
    simp [chainHoistedSpec, List.append_assoc]

theorem chainHoistedSpec_length (n : String) (names : List String) :
    (chainHoistedSpec n names).length = names.length + 1 := by
  induction names generalizing n with
  | nil => rfl
  | cons m rest ih => simp [chainHoistedSpec, ih]

theorem chainHoistedSpec_flat (n : String) (names : List String) :
    containsInlineList (chainHoistedSpec n names) = false := by
  induction names generalizing n with
  | nil => rfl
  | cons m rest ih =>
    simp [chainHoistedSpec, containsInlineList_append, ih,
      containsInlineList, containsInline, isDeclNode]

mutual

theorem cxxTransformImpl_flat (ast : ASTNode) (acc : List ASTNode)
    (hwf : wellFormed ast = true) (he : enumsOk ast = true)
    (hacc : containsInlineList acc = false) :
    containsInlineList (cxxTransformImpl acc ast) = false := by
  cases ast with
  | StructDeclaration name children =>
    simp only [wellFormed] at hwf
    simp only [enumsOk] at he
    obtain ⟨f1, f2⟩ := cxxTransformMembers_flat children acc hwf he hacc
    simp only [cxxTransformImpl]
    rw [containsInlineList_append]
    simp [containsInlineList, containsInline, f1, f2]
  | EnumDeclaration name children =>
    simp only [enumsOk, Bool.not_eq_true'] at he
    simp only [cxxTransformImpl]
    rw [containsInlineList_append]
    simp [containsInlineList, containsInline, hacc, he]
  | DataDefinition children =>
    simp only [wellFormed] at hwf
    simp only [enumsOk] at he
    simp only [cxxTransformImpl]
    exact cxxTransformFold_flat children acc hwf he hacc
  | StructMemberDeclaration name dt => simpa [cxxTransformImpl] using hacc
  | EnumMemberDeclaration name => simpa [cxxTransformImpl] using hacc
  | TypeLiteral dt => simpa [cxxTransformImpl] using hacc

theorem cxxTransformMembers_flat (ms : List ASTNode) (acc : List ASTNode)
    (hwf : wfMembers ms = true) (he : enumsOkList ms = true)
    (hacc : containsInlineList acc = false) :
    containsInlineList (cxxTransformMembers acc ms).1 = false ∧
      containsInlineList (cxxTransformMembers acc ms).2 = false := by
  cases ms with
  | nil => simp [cxxTransformMembers, containsInlineList, hacc]
  | cons m rest =>
    simp only [wfMembers, Bool.and_eq_true] at hwf
    obtain ⟨⟨hshape, hwfm⟩, hwfrest⟩ := hwf
    simp only [enumsOkList, Bool.and_eq_true] at he
    obtain ⟨hem, herest⟩ := he
    cases m with
    | StructMemberDeclaration mname dt =>
      simp only [wellFormed, Bool.and_eq_true] at hwfm
      obtain ⟨htshape, hwfdt⟩ := hwfm
      simp only [enumsOk] at hem
      cases dt with
      | StructDeclaration iname ich =>
        have hacc1 := cxxTransformImpl_flat (.StructDeclaration iname ich) acc hwfdt hem hacc
        obtain ⟨f1, f2⟩ := cxxTransformMembers_flat rest
          (cxxTransformImpl acc (.StructDeclaration iname ich)) hwfrest herest hacc1
        simp only [cxxTransformMembers]
        exact ⟨f1, by simp [containsInlineList, containsInline, isDeclNode, f2]⟩
      | EnumDeclaration iname ich =>
        have hacc1 := cxxTransformImpl_flat (.EnumDeclaration iname ich) acc hwfdt hem hacc
        obtain ⟨f1, f2⟩ := cxxTransformMembers_flat rest
          (cxxTransformImpl acc (.EnumDeclaration iname ich)) hwfrest herest hacc1
        simp only [cxxTransformMembers]
        exact ⟨f1, by simp [containsInlineList, containsInline, isDeclNode, f2]⟩
      | TypeLiteral dtt =>
        obtain ⟨f1, f2⟩ := cxxTransformMembers_flat rest acc hwfrest herest hacc
        simp only [cxxTransformMembers]
        exact ⟨f1, by simp [containsInlineList, containsInline, isDeclNode, f2]⟩
      | StructMemberDeclaration a b => simp [memberTypeShape] at htshape
      | EnumMemberDeclaration a => simp [memberTypeShape] at htshape
      | DataDefinition a => simp [memberTypeShape] at htshape
    | EnumMemberDeclaration name =>
      simp only [cxxTransformMembers]
      exact cxxTransformMembers_flat rest acc hwfrest herest hacc
    | StructDeclaration a b => simp [memberShape] at hshape
    | EnumDeclaration a b => simp [memberShape] at hshape
    | TypeLiteral a => simp [memberShape] at hshape
    | DataDefinition a => simp [memberShape] at hshape

theorem cxxTransformFold_flat (cs : List ASTNode) (acc : List ASTNode)
    (hwf : wfDecls cs = true) (he : enumsOkList cs = true)
    (hacc : containsInlineList acc = false) :
    containsInlineList (cxxTransformFold acc cs) = false := by
  cases cs with
  | nil => simpa [cxxTransformFold] using hacc
  | cons c rest =>
    simp only [wfDecls, Bool.and_eq_true] at hwf
    obtain ⟨⟨hd, hwc⟩, hwrest⟩ := hwf
    simp only [enumsOkList, Bool.and_eq_true] at he
    obtain ⟨hec, herest⟩ := he
    have h1 := cxxTransformImpl_flat c acc hwc hec hacc
    simp only [cxxTransformFold]
    exact cxxTransformFold_flat rest _ hwrest herest h1

end

/-! ## Sanity checks mirroring the repository's own tests -/

/-- The parser test of src/parser.rs: struct name with two typed members,
including an option type. -/
theorem parse_scenario_sanity :
    parseTokens [tk .Struct, tk (.Identifier "name"), tk .LCurly,
      tk (.Identifier "member1"), tk .Colon, tk .U32, tk .Comma,
      tk (.Identifier "member2"), tk .Colon, tk .Option, tk .LParen, tk .F32, tk .RParen,
      tk .RCurly] =
    .ok (.DataDefinition [.StructDeclaration "name"
      [.StructMemberDeclaration "member1" (.TypeLiteral .U32),
       .StructMemberDeclaration "member2" (.TypeLiteral (.Option .F32))]]) := rfl

/-- The transformation test of src/cxx.rs: a two-deep nesting of inline
structs is hoisted innermost-first. -/
theorem cxx_transform_sanity :
    cxxTransformAst (.DataDefinition [.StructDeclaration "outer struct"
      [.StructMemberDeclaration "outer struct member 1"
        (.StructDeclaration "inner struct 1"
          [.StructMemberDeclaration "inner struct 1 member 1"
            (.StructDeclaration "inner struct 2" [])])]]) =
    .DataDefinition
      [.StructDeclaration "inner struct 2" [],
       .StructDeclaration "inner struct 1"
         [.StructMemberDeclaration "inner struct 1 member 1"
           (.TypeLiteral (.UserDefined "inner struct 2"))],
       .StructDeclaration "outer struct"
         [.StructMemberDeclaration "outer struct member 1"
           (.TypeLiteral (.UserDefined "inner struct 1"))]] := rfl

/-- The lexer test of src/lexer.rs, first tokens: each token records the
location reached after its FIRST character was consumed. -/
theorem lex_scenario_sanity :
    lexTokens ['\x7b', ' ', 'n', 'a', 'm', 'e', ':', ' ', 's', 't', 'r', 'i', 'n', 'g', ' ',
      '\x7d'] =
    .ok [⟨.LCurly, ⟨1, 1⟩⟩, ⟨.Identifier "name", ⟨1, 3⟩⟩, ⟨.Colon, ⟨1, 7⟩⟩,
      ⟨.String, ⟨1, 9⟩⟩, ⟨.RCurly, ⟨1, 16⟩⟩] := rfl

/-! ## Claim theorems -/

/-- C1: parsing the type form option ( T ) produces DataType.Option wrapping
the recursively parsed inner type, as claimed; but parsing array ( T ) ALSO
produces DataType.Option (parser.rs line 270 wraps the inner type in
DataType::Option in the TokenType::Array branch), not DataType.Array — even
though DataType::Array exists and both backends render it.  The conjuncts
evaluate the parser at the failing input and exhibit the dead Array support
in both backends. -/
theorem claim_C1_array_parses_as_option :
    parseLiteralType 9 .Option [tk .LParen, tk .U8, tk .RParen] = .ok (.Option .U8, [])
    ∧ parseLiteralType 9 .Array [tk .LParen, tk .U8, tk .RParen] = .ok (.Option .U8, [])
    ∧ parseLiteralType 9 .Array [tk .LParen, tk .U8, tk .RParen] ≠ .ok (.Array .U8, [])
    ∧ parseTokens [tk .Struct, tk (.Identifier "s"), tk .LCurly, tk (.Identifier "m"),
        tk .Colon, tk .Array, tk .LParen, tk .U8, tk .RParen, tk .RCurly] =
      .ok (.DataDefinition [.StructDeclaration "s"
        [.StructMemberDeclaration "m" (.TypeLiteral (.Option .U8))]])
    ∧ cxxGenerateTypeName (.Array .U8) = "std::vector<std::uint8_t>"
    ∧ tsGenerateTypeName (.Array .U8) = "types.array(types.num)" := by
  refine ⟨rfl, rfl, ?_, rfl, rfl, rfl⟩
  have h : parseLiteralType 9 .Array [tk .LParen, tk .U8, tk .RParen] =
      .ok (.Option .U8, []) := rfl
  rw [h]
  simp

/-- C2 counterexample: a member name followed directly by the closing brace
does NOT parse as an EnumMemberDeclaration — it is an UnexpectedToken error
(the catch-all arm after Colon and Comma in
parse_named_statement_list_children, parser.rs line 208). -/
theorem claim_C2_cex :
    parseTokens [tk .Enum, tk (.Identifier "E"), tk .LCurly, tk (.Identifier "a"), tk .RCurly] =
      .error .UnexpectedToken
    ∧ parseTokens [tk .Enum, tk (.Identifier "E"), tk .LCurly, tk (.Identifier "a"), tk .RCurly] ≠
      .ok (.DataDefinition [.EnumDeclaration "E" [.EnumMemberDeclaration "a"]]) := by
  refine ⟨rfl, ?_⟩
  have h : parseTokens [tk .Enum, tk (.Identifier "E"), tk .LCurly, tk (.Identifier "a"),
      tk .RCurly] = .error .UnexpectedToken := rfl
  rw [h]
  simp

/-- C2 (amended): a member name followed by a colon parses as a
StructMemberDeclaration; a member name followed directly by a comma parses as
an EnumMemberDeclaration; a member name followed by any other token —
including the closing brace — is an UnexpectedToken error; the trailing comma
after a struct member is optional; and the member list terminates as soon as
the next (peeked, unconsumed) token is not an identifier. -/
theorem claim_C2_member_rules :
    (∀ s m : String,
      parseTokens [tk .Struct, tk (.Identifier s), tk .LCurly, tk (.Identifier m), tk .Colon,
        tk .U32, tk .RCurly] =
      .ok (.DataDefinition [.StructDeclaration s
        [.StructMemberDeclaration m (.TypeLiteral .U32)]]))
    ∧ (∀ s m : String,
      parseTokens [tk .Struct, tk (.Identifier s), tk .LCurly, tk (.Identifier m), tk .Colon,
        tk .U32, tk .Comma, tk .RCurly] =
      .ok (.DataDefinition [.StructDeclaration s
        [.StructMemberDeclaration m (.TypeLiteral .U32)]]))
    ∧ (∀ e a b : String,
      parseTokens [tk .Enum, tk (.Identifier e), tk .LCurly, tk (.Identifier a), tk .Comma,
        tk (.Identifier b), tk .Comma, tk .RCurly] =
      .ok (.DataDefinition [.EnumDeclaration e
        [.EnumMemberDeclaration a, .EnumMemberDeclaration b]]))
    ∧ (∀ e a : String,
      parseTokens [tk .Enum, tk (.Identifier e), tk .LCurly, tk (.Identifier a), tk .RCurly] =
      .error .UnexpectedToken)
    ∧ (∀ (fuel : Nat) (t : Token) (ts : List Token), isIdentifierToken t.tokenType = false →
      parseNamedStatementListChildren (fuel + 1) (t :: ts) = .ok ([], t :: ts)) := by
  refine ⟨fun s m => rfl, fun s m => rfl, fun e a b => rfl, fun e a => rfl, ?_⟩
  intro fuel t ts h
  cases t with
  | mk tt loc => cases tt <;> first | rfl | simp [isIdentifierToken] at h

/-- C2 witness: instantiating the termination conjunct at a closing brace. -/
theorem claim_C2_member_rules_witness :
    parseNamedStatementListChildren 6 [tk .RCurly] = .ok ([], [tk .RCurly]) :=
  claim_C2_member_rules.2.2.2.2 5 (tk .RCurly) [] rfl

/-- C3 counterexample: a depth-1 chain whose outer link is an enum
declaration with a colon-typed member holding an inline struct (the grammar
permits this shape).  transform_ast_impl pushes enum declarations verbatim
(cxx.rs lines 78-82), so normalization yields 1 top-level declaration instead
of the claimed 2, and the member still holds the inline declaration rather
than a TypeLiteral (UserDefined) reference. -/
theorem claim_C3_cex :
    cxxTransformAst (.DataDefinition [.EnumDeclaration "E"
        [.StructMemberDeclaration "m" (.StructDeclaration "S" [])]]) =
      .DataDefinition [.EnumDeclaration "E"
        [.StructMemberDeclaration "m" (.StructDeclaration "S" [])]]
    ∧ (cxxTransformImpl [] (.DataDefinition [.EnumDeclaration "E"
        [.StructMemberDeclaration "m" (.StructDeclaration "S" [])]])).length = 1
    ∧ containsInlineList (cxxTransformImpl [] (.DataDefinition [.EnumDeclaration "E"
        [.StructMemberDeclaration "m" (.StructDeclaration "S" [])]])) = true :=
  ⟨rfl, rfl, rfl⟩

/-- C3 (amended): for every chain of nested inline STRUCT declarations at
depth N (names lists the N inner declaration names), normalization produces
exactly N + 1 top-level declarations, innermost first — chainHoistedSpec
places the innermost declaration at the head and appends each enclosing
declaration after its inner one — and no resulting declaration retains an
inline member type: every member that referenced an inline declaration now
holds a TypeLiteral (UserDefined name) naming the hoisted declaration, as
chainHoistedSpec spells out.  An enum link with a colon-typed inline member
breaks the original claim (see the counterexample). -/
theorem claim_C3_chain_hoist (n : String) (names : List String) :
    cxxTransformAst (.DataDefinition [chain n names]) = .DataDefinition (chainHoistedSpec n names)
    ∧ (chainHoistedSpec n names).length = names.length + 1
    ∧ containsInlineList (chainHoistedSpec n names) = false := by
  refine ⟨?_, chainHoistedSpec_length n names, chainHoistedSpec_flat n names⟩
  exact congrArg ASTNode.DataDefinition (cxxTransformImpl_chain names n [])

/-- C4 counterexample: the token stream of enum E2 with a colon-typed member
holding an inline struct S2 is parser-producible, yet the normalized result
still contains the inline declaration — the transformation clones enum
declarations verbatim without recursing into their bodies. -/
theorem claim_C4_cex :
    parseTokens [tk .Enum, tk (.Identifier "E2"), tk .LCurly, tk (.Identifier "m"), tk .Colon,
      tk .Struct, tk (.Identifier "S2"), tk .LCurly, tk .RCurly, tk .Comma, tk .RCurly] =
      .ok (.DataDefinition [.EnumDeclaration "E2"
        [.StructMemberDeclaration "m" (.StructDeclaration "S2" [])]])
    ∧ containsInlineList (cxxTransformImpl [] (.DataDefinition [.EnumDeclaration "E2"
        [.StructMemberDeclaration "m" (.StructDeclaration "S2" [])]])) = true :=
  ⟨rfl, rfl⟩

/-- C4 (amended): for every well-formed AST (declaration bodies hold member
declarations, member types are TypeLiterals or inline declarations, the root
holds declarations) in which every enum declaration has an inline-free body,
the normalized result contains no declaration with an inline struct or enum
declaration as a member's type.  The enum side condition is forced by the
counterexample: the grammar admits enum bodies with colon-typed inline
members, and those survive normalization untouched. -/
theorem claim_C4_normalized_flat (ast : ASTNode)
    (hwf : wellFormed ast = true) (he : enumsOk ast = true) :
    containsInlineList (cxxTransformImpl [] ast) = false :=
  cxxTransformImpl_flat ast [] hwf he rfl

/-- C4 witness: a nested inline struct under a struct satisfies both side
conditions, and its normalization is inline-free. -/
theorem claim_C4_normalized_flat_witness :
    wellFormed (ASTNode.DataDefinition [.StructDeclaration "outer"
        [.StructMemberDeclaration "m" (.StructDeclaration "inner" [])]]) = true
    ∧ enumsOk (ASTNode.DataDefinition [.StructDeclaration "outer"
        [.StructMemberDeclaration "m" (.StructDeclaration "inner" [])]]) = true
    ∧ containsInlineList (cxxTransformImpl [] (ASTNode.DataDefinition
        [.StructDeclaration "outer"
          [.StructMemberDeclaration "m" (.StructDeclaration "inner" [])]])) = false :=
  ⟨rfl, rfl, claim_C4_normalized_flat _ rfl rfl⟩

/-- C5 counterexample: struct S with a bare (enum-style) member a is
parser-producible and contains no inline nested declaration, yet
normalization is NOT the identity on it: the if-let in transform_ast_impl
(cxx.rs line 42) silently drops every declaration-body child that is not a
StructMemberDeclaration, so the member disappears. -/
theorem claim_C5_cex :
    parseTokens [tk .Struct, tk (.Identifier "S"), tk .LCurly, tk (.Identifier "a"), tk .Comma,
      tk .RCurly] = .ok (.DataDefinition [.StructDeclaration "S" [.EnumMemberDeclaration "a"]])
    ∧ cxxTransformAst (.DataDefinition [.StructDeclaration "S" [.EnumMemberDeclaration "a"]]) =
      .DataDefinition [.StructDeclaration "S" []]
    ∧ cxxTransformAst (.DataDefinition [.StructDeclaration "S" [.EnumMemberDeclaration "a"]]) ≠
      .DataDefinition [.StructDeclaration "S" [.EnumMemberDeclaration "a"]] := by
  refine ⟨rfl, rfl, ?_⟩
  have h : cxxTransformAst (.DataDefinition [.StructDeclaration "S"
      [.EnumMemberDeclaration "a"]]) = .DataDefinition [.StructDeclaration "S" []] := rfl
  rw [h]
  simp

/-- C5 (amended): normalization is the identity on every AST whose top-level
children are enum declarations (any body) or struct declarations all of whose
children are struct members with non-inline types.  The original claim's
parenthetical — struct bodies containing EnumMemberDeclaration children — is
exactly where identity fails, since such children are dropped (see the
counterexample). -/
theorem claim_C5_identity (cs : List ASTNode) (h : cs.all identityChild = true) :
    cxxTransformAst (.DataDefinition cs) = .DataDefinition cs :=
  congrArg ASTNode.DataDefinition (cxxTransformFold_identity cs [] h)

/-- C5 witness: a plain struct and a plain enum pass through unchanged. -/
theorem claim_C5_identity_witness :
    ([ASTNode.StructDeclaration "point" [.StructMemberDeclaration "x" (.TypeLiteral .F32)],
      ASTNode.EnumDeclaration "color" [.EnumMemberDeclaration "red"]].all identityChild) = true
    ∧ cxxTransformAst (.DataDefinition
        [ASTNode.StructDeclaration "point" [.StructMemberDeclaration "x" (.TypeLiteral .F32)],
         ASTNode.EnumDeclaration "color" [.EnumMemberDeclaration "red"]]) =
      .DataDefinition
        [ASTNode.StructDeclaration "point" [.StructMemberDeclaration "x" (.TypeLiteral .F32)],
         ASTNode.EnumDeclaration "color" [.EnumMemberDeclaration "red"]] :=
  ⟨rfl, claim_C5_identity _ rfl⟩

/-- C6 counterexample: lexing the two-character identifier ab records
position 1 — the position after consuming its FIRST character — not
position 2, the position after its last character as the claim states.
lex_name clones the lexer location before consuming the rest of the run
(lexer.rs line 188), and the repository's own lexer test asserts these
first-character positions. -/
theorem claim_C6_cex :
    lexTokens ['a', 'b'] = .ok [⟨.Identifier "ab", ⟨1, 1⟩⟩]
    ∧ lexTokens ['a', 'b'] ≠ .ok [⟨.Identifier "ab", ⟨1, 2⟩⟩] := by
  refine ⟨rfl, ?_⟩
  have h : lexTokens ['a', 'b'] = .ok [⟨.Identifier "ab", ⟨1, 1⟩⟩] := rfl
  rw [h]
  simp

theorem lexKeywordToken_sourceLocation (s : String) (loc : SourceLocation) :
    (lexKeywordToken s loc).sourceLocation = loc := by
  unfold lexKeywordToken
  split <;> rfl

/-- C6 (amended): per-character location bookkeeping is as claimed (position
incremented per character, line incremented and position reset to 0 on each
newline), and a single-character token records the position after its
character; but a multi-character identifier or keyword records the location
captured just after its FIRST character, whatever the rest of the run is —
the first conjunct shows the token produced by lex_name carries exactly the
location it was entered with.  The concrete conjuncts exhibit the newline
reset and the first-character positions of the identifier ab and the keyword
u32. -/
theorem claim_C6_token_locations :
    (∀ (loc : SourceLocation) (startChar : Char) (cs : List Char),
      (lexName loc startChar cs).1.sourceLocation = loc)
    ∧ lexTokens ['a', '\n', 'b'] =
        .ok [⟨.Identifier "a", ⟨1, 1⟩⟩, ⟨.Identifier "b", ⟨2, 1⟩⟩]
    ∧ lexTokens ['\x7b', ' ', 'a', 'b', ':', ' ', 'u', '3', '2', ' ', '\x7d'] =
        .ok [⟨.LCurly, ⟨1, 1⟩⟩, ⟨.Identifier "ab", ⟨1, 3⟩⟩, ⟨.Colon, ⟨1, 5⟩⟩,
          ⟨.U32, ⟨1, 7⟩⟩, ⟨.RCurly, ⟨1, 11⟩⟩] := by
  refine ⟨?_, rfl, rfl⟩
  intro loc startChar cs
  exact lexKeywordToken_sourceLocation _ loc

/-- C7 counterexample: the structural C++ backend does not yield
Err(InvalidAST) for a non-declaration top-level child — its generate_code
has no error channel at all (it returns a plain string, src/cxx.rs line 14),
and its transformation silently discards the member node, yielding the
successful empty output. -/
theorem claim_C7_cex :
    cxxGenerateCode (.DataDefinition [.StructMemberDeclaration "m" (.TypeLiteral .U8)]) = "" :=
  rfl

/-- C7 (amended): the reactive ts-mobx backend's top-level export emission
yields Err(CompilationError::InvalidAST) for every node that is not a struct
or enum declaration — a reachable branch; the structural C++ backend instead
is total: its transformation leaves the accumulator untouched on every
non-declaration node (so such top-level children are silently dropped) and
generation returns a plain string, never an InvalidAST error. -/
theorem claim_C7_invalid_ast :
    (∀ ast : ASTNode, isDeclNode ast = false → tsGenerateTopLevel ast = .error .InvalidAST)
    ∧ (∀ (acc : List ASTNode) (name : String) (d : ASTNode) (dt : DataType),
        cxxTransformImpl acc (.TypeLiteral dt) = acc
        ∧ cxxTransformImpl acc (.StructMemberDeclaration name d) = acc
        ∧ cxxTransformImpl acc (.EnumMemberDeclaration name) = acc)
    ∧ tsGenerateTopLevel (.TypeLiteral .U8) = .error .InvalidAST
    ∧ cxxGenerateCode (.DataDefinition [.TypeLiteral .U8]) = "" := by
  refine ⟨?_, fun acc name d dt => ⟨rfl, rfl, rfl⟩, ?_, rfl⟩
  · intro ast h
    cases ast <;> simp_all [isDeclNode, tsGenerateTopLevel]
  · simp [tsGenerateTopLevel]

/-- C7 witness: the InvalidAST branch fires on a bare enum member node. -/
theorem claim_C7_invalid_ast_witness :
    tsGenerateTopLevel (.EnumMemberDeclaration "x") = .error .InvalidAST :=
  claim_C7_invalid_ast.1 (.EnumMemberDeclaration "x") rfl

/-- C8: every primitive numeric DataType — unsigned and signed integers of
widths 8, 16, 32 and 64, and both floating-point widths — renders to the one
generic marker string "types.num" in the ts-mobx backend, so any two numeric
kinds produce identical rendered type text. -/
theorem claim_C8_numeric_collapse :
    (∀ d : DataType, isNumericDataType d = true → tsGenerateTypeName d = "types.num")
    ∧ (∀ d₁ d₂ : DataType, isNumericDataType d₁ = true → isNumericDataType d₂ = true →
        tsGenerateTypeName d₁ = tsGenerateTypeName d₂) := by
  have h : ∀ d : DataType, isNumericDataType d = true → tsGenerateTypeName d = "types.num" := by
    intro d hd
    cases d <;> first | rfl | simp [isNumericDataType] at hd
  exact ⟨h, fun d₁ d₂ h1 h2 => (h d₁ h1).trans (h d₂ h2).symm⟩

/-- C8 witness: u8 renders to types.num and agrees with f64. -/
theorem claim_C8_numeric_collapse_witness :
    tsGenerateTypeName .U8 = "types.num" ∧ tsGenerateTypeName .U8 = tsGenerateTypeName .F64 :=
  ⟨claim_C8_numeric_collapse.1 .U8 rfl, claim_C8_numeric_collapse.2 .U8 .F64 rfl rfl⟩

/-- C9: for every identifier string outside the alias table, Target::from_str
fails with CompilationError::UnknownTarget carrying exactly the rejected
input string.  Resolution is a pure function of its argument (the embedding
is a plain function; the source likewise only constructs a value), so no
side effect is possible. -/
theorem claim_C9_unknown_target (s : String)
    (h : s ∉ (["cxx", "cpp", "c++", "h", "ts-mobx", "typescript-mobx", "ts"] : List String)) :
    Target.fromStr s = .error (.UnknownTarget s) := by
  have ha : ¬(s = "cxx" ∨ s = "cpp" ∨ s = "c++" ∨ s = "h") := by
    intro hc
    apply h
    rcases hc with hh | hh | hh | hh <;> simp [hh]
  have hb : ¬(s = "ts-mobx" ∨ s = "typescript-mobx" ∨ s = "ts") := by
    intro hc
    apply h
    rcases hc with hh | hh | hh <;> simp [hh]
  simp [Target.fromStr, ha, hb]

/-- C9 witness: the spec's scenario — resolving bogus fails with
UnknownTarget "bogus". -/
theorem claim_C9_unknown_target_witness :
    Target.fromStr "bogus" = .error (.UnknownTarget "bogus") :=
  claim_C9_unknown_target "bogus" (by decide)

/-- C10: target resolution succeeds for exactly the seven alias strings —
cxx, cpp, c++ and h resolve to the C++ backend, ts-mobx, typescript-mobx and
ts resolve to the ts-mobx backend — and matching is case-exact: uppercase
variants fail with UnknownTarget carrying the input. -/
theorem claim_C10_alias_table :
    (∀ s : String, (∃ t, Target.fromStr s = .ok t) ↔
      s ∈ (["cxx", "cpp", "c++", "h", "ts-mobx", "typescript-mobx", "ts"] : List String))
    ∧ Target.fromStr "cxx" = .ok .CXXGenerator
    ∧ Target.fromStr "cpp" = .ok .CXXGenerator
    ∧ Target.fromStr "c++" = .ok .CXXGenerator
    ∧ Target.fromStr "h" = .ok .CXXGenerator
    ∧ Target.fromStr "ts-mobx" = .ok .TSMobXGenerator
    ∧ Target.fromStr "typescript-mobx" = .ok .TSMobXGenerator
    ∧ Target.fromStr "ts" = .ok .TSMobXGenerator
    ∧ Target.fromStr "CXX" = .error (.UnknownTarget "CXX")
    ∧ Target.fromStr "Ts" = .error (.UnknownTarget "Ts") := by
  refine ⟨?_, rfl, rfl, rfl, rfl, rfl, rfl, rfl, rfl, rfl⟩
  intro s
  constructor
  · rintro ⟨t, ht⟩
    by_cases h1 : s = "cxx" ∨ s = "cpp" ∨ s = "c++" ∨ s = "h"
    · rcases h1 with rfl | rfl | rfl | rfl <;> simp
    · by_cases h2 : s = "ts-mobx" ∨ s = "typescript-mobx" ∨ s = "ts"
      · rcases h2 with rfl | rfl | rfl <;> simp
      · simp [Target.fromStr, h1, h2] at ht
  · intro hs
    simp only [List.mem_cons, List.not_mem_nil, or_false] at hs
    rcases hs with rfl | rfl | rfl | rfl | rfl | rfl | rfl
    all_goals first
      | exact ⟨TargetKind.CXXGenerator, rfl⟩
      | exact ⟨TargetKind.TSMobXGenerator, rfl⟩

/-- C10 witness: the h alias resolves to the C++ backend. -/
theorem claim_C10_alias_table_witness :
    Target.fromStr "h" = .ok .CXXGenerator :=
  claim_C10_alias_table.2.2.2.2.1
